import Mathlib

/-!
Shallow embedding of the outlier-detection/handling pipeline of `quick_EDA.py`
(repository ML-Basic).  Datasets are modelled as a list of column names plus a
list of rows; each row is a (label, cells) pair, mirroring a pandas DataFrame
with an integer index.  Numeric values are taken in a linear ordered field
`α`; the program instance is `α = ℝ` with `Real.sqrt` as the square-root
routine used by `numpy.std`.  Fallible lookups (pandas `KeyError`) and
Python's unbound-local failure are modelled with `Except String`.
-/

namespace MLBasic

variable {α : Type} [LinearOrderedField α]

/-- `numpy.mean`: arithmetic mean of a sequence (0 on the empty list, since
`0 / 0 = 0` in Lean; the claims we settle never depend on the empty case). -/
def np_mean (xs : List α) : α := xs.sum / xs.length

/-- Population variance (`ddof = 0`), the quantity whose square root
`numpy.std` returns. -/
def popVar (xs : List α) : α :=
  ((xs.map (fun x => (x - np_mean xs) ^ 2)).sum) / xs.length

/-- `numpy.std`: square root of the population variance.  The square-root
routine `s` is a parameter; the program instance is `Real.sqrt`. -/
def np_std (s : α → α) (xs : List α) : α := s (popVar xs)

/-- Boolean-mask selection, positionally aligned, as in pandas
`series[mask]`. -/
def maskFilter {β : Type} (xs : List β) (m : List Bool) : List β :=
  (xs.zip m).filterMap (fun p => if p.2 then some p.1 else none)

/-- The `columns` argument of the EDA functions: either a single string or a
list of column names (Python's dynamic typing). -/
inductive ColumnsArg where
  | str (s : String)
  | list (l : List String)

/-- A pandas DataFrame: named columns and labelled rows (each row holds one
cell per column). -/
structure Dataset (α : Type) where
  cols : List String
  rows : List (Nat × List α)

/-- Position of a named column, `none` when absent. -/
def colIdx (df : Dataset α) (c : String) : Option Nat :=
  df.cols.findIdx? (fun x => x == c)

/-- `df[column]` as a labelled series; `none` models pandas `KeyError`. -/
def getCol (df : Dataset α) (c : String) : Option (List (Nat × α)) :=
  match colIdx df c with
  | none => none
  | some i => some (df.rows.filterMap (fun r => (r.2[i]?).map (fun v => (r.1, v))))

/-- The column-normalisation prologue shared by `five_point_summary`,
`outliers_z_score`, `outliers_IQR` (and `analysis_*`): a single string equal
to the sentinel `'all_the_columns'` selects every column, any other single
string becomes a one-element list. -/
def normalizeColumns (df : Dataset α) (columns : ColumnsArg) : List String :=
  match columns with
  | .str s => if s = "all_the_columns" then df.cols else [s]
  | .list l => l

/-- The column-normalisation prologue of `handle_outliers`: a single string
is always wrapped into a one-element list, with no sentinel check. -/
def handleColumns (columns : ColumnsArg) : List String :=
  match columns with
  | .str s => [s]
  | .list l => l

/-- Ascending sort, as performed internally by pandas when computing
quantiles. -/
def sortVals (xs : List α) : List α := xs.insertionSort (· ≤ ·)

/-- The linear-interpolation quantile convention of pandas
`Series.quantile` / `describe` at fraction `num/den`: with sorted values `s`
of length `n` and `h = (n−1)·num/den`, the result is
`s[i] + g·(s[i+1] − s[i])` where `i = ⌊h⌋` and `g = h − i`.  The floor and
fractional part of `h` are expressed by natural division and remainder of
`k = (n−1)·num` by `den`. -/
def pandas_quantile (xs : List α) (num den : ℕ) : α :=
  let s := sortVals xs
  let k := (s.length - 1) * num
  let i := k / den
  let g : α := ((k % den : ℕ) : α) / (den : α)
  let a := s.getD i 0
  let b := s.getD (i + 1) 0
  a + g * (b - a)

/-- One iteration of the loop body of `outliers_z_score`: series extraction,
`mean`/`std`, the `±3σ` limits, the Z-score series, the `|Z| > 3` mask, and
the mask-selected outliers paired with their Z-scores (`pd.DataFrame` of
`feature[mask]` and `Z[mask]`, which share their index, so the pairing is
positional). -/
def z_column (s : α → α) (df : Dataset α) (column : String) :
    Except String (α × α × List (Nat × α × α)) :=
  match getCol df column with
  | none => .error "KeyError"
  | some feature =>
    let vals := feature.map Prod.snd
    let mean := np_mean vals
    let stdev := np_std s vals
    let lower := -3 * stdev + mean
    let upper := 3 * stdev + mean
    let Z := feature.map (fun r => (r.1, (r.2 - mean) / stdev))
    let mask := Z.map (fun r => decide (|r.2| > 3))
    let outliers_with_z :=
      (maskFilter feature mask).zipWith (fun a b => (a.1, a.2, b.2)) (maskFilter Z mask)
    .ok (upper, lower, outliers_with_z)

/-- One iteration of the loop body of `outliers_IQR`: quartiles from the
`describe` rows `iloc[4]`/`iloc[6]` (the 25% and 75% linear-interpolation
quantiles), Tukey fences with multiplier `1.5`, and the
`(feature < lower) | (feature > upper)` mask selection. -/
def iqr_column (df : Dataset α) (column : String) :
    Except String (α × α × List (Nat × α)) :=
  match getCol df column with
  | none => .error "KeyError"
  | some feature =>
    let vals := feature.map Prod.snd
    let q1 := pandas_quantile vals 1 4
    let q3 := pandas_quantile vals 3 4
    let iqr := q3 - q1
    let upper := q3 + (3 / 2 : α) * iqr
    let lower := q1 - (3 / 2 : α) * iqr
    let outliers_with_IQR := feature.filter (fun r => decide (r.2 < lower ∨ r.2 > upper))
    .ok (upper, lower, outliers_with_IQR)

/-- The `for column in columns` loop of `outliers_z_score`: in `'return'`
mode the function returns the first column's triple from inside the loop;
in any other mode it prints and keeps iterating, returning `None` (`none`)
when the loop completes. -/
def z_loop (s : α → α) (df : Dataset α) (mode : String) :
    List String → Except String (Option (α × α × List (Nat × α × α)))
  | [] => .ok none
  | c :: cs =>
    match z_column s df c with
    | .error e => .error e
    | .ok t => if mode = "return" then .ok (some t) else z_loop s df mode cs

/-- `outliers_z_score(df, columns, mode)`. -/
def outliers_z_score (s : α → α) (df : Dataset α) (columns : ColumnsArg)
    (mode : String) : Except String (Option (α × α × List (Nat × α × α))) :=
  z_loop s df mode (normalizeColumns df columns)

/-- The `for column in columns` loop of `outliers_IQR`. -/
def iqr_loop (df : Dataset α) (mode : String) :
    List String → Except String (Option (α × α × List (Nat × α)))
  | [] => .ok none
  | c :: cs =>
    match iqr_column df c with
    | .error e => .error e
    | .ok t => if mode = "return" then .ok (some t) else iqr_loop df mode cs

/-- `outliers_IQR(df, columns, mode)`. -/
def outliers_IQR (df : Dataset α) (columns : ColumnsArg) (mode : String) :
    Except String (Option (α × α × List (Nat × α))) :=
  iqr_loop df mode (normalizeColumns df columns)

/-- `five_point_summary(df, columns)`: per selected column the
`describe().iloc[3:]` rows, i.e. min, 25%, 50%, 75%, max (the quantiles at
fractions 0, 1/4, 1/2, 3/4, 1). -/
def five_point_summary (df : Dataset α) (columns : ColumnsArg) :
    Except String (List (String × α × α × α × α × α)) :=
  (normalizeColumns df columns).mapM (fun c =>
    match getCol df c with
    | none => .error "KeyError"
    | some feature =>
      let vals := feature.map Prod.snd
      .ok (c, pandas_quantile vals 0 1, pandas_quantile vals 1 4,
        pandas_quantile vals 1 2, pandas_quantile vals 3 4,
        pandas_quantile vals 1 1))

/-! ### `handle_outliers` -/

/-- The Python locals `upper, lower, outliers` of the `handle_outliers`
loop body, once assigned: the two limits and the index labels of the
flagged rows (`outliers.index`). -/
abbrev HLoc (α : Type) := α × α × List Nat

/-- A removed/compressed report printed by `handle_outliers`:
(action, column, flagged index labels). -/
abbrev HRep := String × String × List Nat

/-- Python `str.upper` on the ASCII range (every method token compared
against is ASCII). -/
def pyToUpper (s : String) : String :=
  ⟨s.data.map (fun c => if 97 ≤ c.toNat ∧ c.toNat ≤ 122 then Char.ofNat (c.toNat - 32) else c)⟩

/-- Python `str.strip`: drop leading and trailing whitespace. -/
def pyStrip (s : String) : String :=
  ⟨((s.data.dropWhile Char.isWhitespace).reverse.dropWhile Char.isWhitespace).reverse⟩

/-- Python `using.strip().upper()`. -/
def pyStripUpper (s : String) : String := pyToUpper (pyStrip s)

/-- The two independent method conditionals at the top of the
`handle_outliers` loop body: `using.strip().upper()` compared against
`'IQR'` and `'Z'`.  When neither matches, the locals keep whatever value
they had (possibly still unassigned, `none`). -/
def dispatchMethod (s : α → α) (df : Dataset α) (column using_ : String)
    (loc : Option (HLoc α)) : Except String (Option (HLoc α)) :=
  let mtd := pyStripUpper using_
  let loc1 : Except String (Option (HLoc α)) :=
    if mtd = "IQR" then
      match iqr_column df column with
      | .error e => .error e
      | .ok (u, l, out) => .ok (some (u, l, out.map Prod.fst))
    else .ok loc
  match loc1 with
  | .error e => .error e
  | .ok loc1 =>
    if mtd = "Z" then
      match z_column s df column with
      | .error e => .error e
      | .ok (u, l, out) => .ok (some (u, l, out.map Prod.fst))
    else .ok loc1

/-- `df.drop(index=labels, inplace=True)`: delete every row whose label is
listed. -/
def dropRows (df : Dataset α) (labels : List Nat) : Dataset α :=
  { df with rows := df.rows.filter (fun r => !(labels.contains r.1)) }

/-- Assignment to the cell of column `i` in every row whose cell satisfies
`p` (`df.loc[mask, column] = w`), on one row's cells. -/
def setCells (p : α → Bool) (w : α) : Nat → List α → List α
  | _, [] => []
  | 0, v :: vs => (if p v then w else v) :: vs
  | n + 1, v :: vs => v :: setCells p w n vs

/-- `df.loc[p(df[column]), column] = w` across all rows, with `i` the
position of the column. -/
def setWhere (df : Dataset α) (i : Nat) (p : α → Bool) (w : α) : Dataset α :=
  { df with rows := df.rows.map (fun r => (r.1, setCells p w i r.2)) }

/-- The compress mutation: first `df.loc[df[column] > upper] = upper`,
then `df.loc[df[column] < lower] = lower`. -/
def clampCol (df : Dataset α) (i : Nat) (upper lower : α) : Dataset α :=
  setWhere (setWhere df i (fun v => decide (v > upper)) upper) i
    (fun v => decide (v < lower)) lower

/-- The `if action=='remove'` conditional: dropping `outliers.index` reads
the loop locals, so an unassigned `outliers` raises
`UnboundLocalError`. -/
def doRemove (df : Dataset α) (loc : Option (HLoc α)) (column action : String) :
    Except String (Dataset α × List HRep) :=
  if action = "remove" then
    match loc with
    | none => .error "UnboundLocalError"
    | some (_, _, labels) => .ok (dropRows df labels, [("remove", column, labels)])
  else .ok (df, [])

/-- The `if action=='compress'` conditional: `df[column]` is looked up
first (`KeyError` when absent), then the unassigned-locals failure, then
the two clamping assignments. -/
def doCompress (df : Dataset α) (loc : Option (HLoc α)) (column action : String) :
    Except String (Dataset α × List HRep) :=
  if action = "compress" then
    match colIdx df column with
    | none => .error "KeyError"
    | some i =>
      match loc with
      | none => .error "UnboundLocalError"
      | some (u, l, labels) => .ok (clampCol df i u l, [("compress", column, labels)])
  else .ok (df, [])

/-- One iteration of the `handle_outliers` loop: method dispatch (which may
re-assign the locals), then the remove conditional, then the compress
conditional. -/
def hstep (s : α → α) (using_ action : String)
    (st : Dataset α × Option (HLoc α) × List HRep) (column : String) :
    Except String (Dataset α × Option (HLoc α) × List HRep) :=
  match dispatchMethod s st.1 column using_ st.2.1 with
  | .error e => .error e
  | .ok loc2 =>
    match doRemove st.1 loc2 column action with
    | .error e => .error e
    | .ok (df1, r1) =>
      match doCompress df1 loc2 column action with
      | .error e => .error e
      | .ok (df2, r2) => .ok (df2, loc2, st.2.2 ++ r1 ++ r2)

/-- The `for column in columns` loop of `handle_outliers`; the locals
persist across iterations (Python function scope). -/
def handleLoop (s : α → α) (using_ action : String) :
    Dataset α × Option (HLoc α) × List HRep → List String →
    Except String (Dataset α × Option (HLoc α) × List HRep)
  | st, [] => .ok st
  | st, c :: cs =>
    match hstep s using_ action st c with
    | .error e => .error e
    | .ok st' => handleLoop s using_ action st' cs

/-- `handle_outliers(df, columns, using, action)`: single strings are
wrapped literally (no `'all_the_columns'` sentinel), then the loop runs;
the result is the mutated dataset together with the removed/compressed
reports that were printed. -/
def handle_outliers (s : α → α) (df : Dataset α) (columns : ColumnsArg)
    (using_ action : String) : Except String (Dataset α × List HRep) :=
  match handleLoop s using_ action (df, none, []) (handleColumns columns) with
  | .error e => .error e
  | .ok (df', _, reps) => .ok (df', reps)

/-! ### Helper lemmas -/

theorem popVar_nonneg (xs : List α) : 0 ≤ popVar xs := by
  apply div_nonneg _ (Nat.cast_nonneg _)
  exact List.sum_nonneg (by
    intro x hx
    obtain ⟨y, _, rfl⟩ := List.mem_map.mp hx
    exact sq_nonneg _)

theorem eq_mean_of_popVar_eq_zero {xs : List α} (hne : xs ≠ [])
    (h : popVar xs = 0) : ∀ x ∈ xs, x = np_mean xs := by
  have hlen : (xs.length : α) ≠ 0 :=
    Nat.cast_ne_zero.mpr (fun h0 => hne (List.length_eq_zero.mp h0))
  have hsum : (xs.map (fun x => (x - np_mean xs) ^ 2)).sum = 0 := by
    rcases div_eq_zero_iff.mp h with h' | h'
    · exact h'
    · exact absurd h' hlen
  intro x hx
  have hx2 : (x - np_mean xs) ^ 2 = 0 := by
    by_contra hne2
    have hmem : (x - np_mean xs) ^ 2 ∈ xs.map (fun x => (x - np_mean xs) ^ 2) :=
      List.mem_map.mpr ⟨x, hx, rfl⟩
    have hlt : 0 < (x - np_mean xs) ^ 2 := lt_of_le_of_ne (sq_nonneg _) (Ne.symm hne2)
    have hrest : 0 ≤ ((xs.map (fun x => (x - np_mean xs) ^ 2)).erase ((x - np_mean xs) ^ 2)).sum :=
      List.sum_nonneg (by
        intro y hy
        obtain ⟨z, _, rfl⟩ := List.mem_map.mp (List.mem_of_mem_erase hy)
        exact sq_nonneg _)
    have := List.sum_erase hmem
    nlinarith [this]
  exact sub_eq_zero.mp (sq_eq_zero_iff.mp hx2)

theorem sum_of_const {xs : List α} {c : α} (hall : ∀ x ∈ xs, x = c) :
    xs.sum = xs.length * c := by
  induction xs with
  | nil => simp
  | cons a l ih =>
    have ha := hall a (by simp)
    have hl := ih (fun x hx => hall x (List.mem_cons_of_mem a hx))
    simp [List.sum_cons, ha, hl]
    ring

theorem mean_of_const {xs : List α} {c : α} (hne : xs ≠ [])
    (hall : ∀ x ∈ xs, x = c) : np_mean xs = c := by
  have hlen : (xs.length : α) ≠ 0 :=
    Nat.cast_ne_zero.mpr (fun h0 => hne (List.length_eq_zero.mp h0))
  rw [np_mean, sum_of_const hall, mul_comm, mul_div_assoc, div_self hlen, mul_one]

theorem popVar_of_const {xs : List α} {c : α} (hne : xs ≠ [])
    (hall : ∀ x ∈ xs, x = c) : popVar xs = 0 := by
  have hmean := mean_of_const hne hall
  have : xs.map (fun x => (x - np_mean xs) ^ 2) = xs.map (fun _ => 0) := by
    apply List.map_congr_left
    intro x hx
    rw [hall x hx, hmean]
    ring
  rw [popVar, this]
  simp

/-- Pairing the mask-selected values with the mask-selected scores, when the
mask is computed from the scores, is the same as filtering value/score pairs
by the score test. -/
theorem maskFilter_zipWith_eq_filterMap {β γ δ : Type}
    (xs : List β) (f : β → γ) (t : γ → Bool) (c : β → γ → δ) :
    (maskFilter xs ((xs.map f).map t)).zipWith c (maskFilter (xs.map f) ((xs.map f).map t)) =
      xs.filterMap (fun x => if t (f x) then some (c x (f x)) else none) := by
  induction xs with
  | nil => simp [maskFilter]
  | cons a l ih =>
    by_cases h : t (f a)
    · simpa [maskFilter, h] using ih
    · simpa [maskFilter, h] using ih

omit [LinearOrderedField α] in
theorem length_setCells (p : α → Bool) (w : α) :
    ∀ (i : Nat) (vs : List α), (setCells p w i vs).length = vs.length := by
  intro i
  induction i with
  | zero =>
    intro vs
    cases vs <;> simp [setCells]
  | succ n ih =>
    intro vs
    cases vs <;> simp [setCells, ih]

theorem sorted_getD_mono {s : List α} (hs : s.Sorted (· ≤ ·)) {i j : ℕ}
    (hij : i ≤ j) (hj : j < s.length) : s.getD i 0 ≤ s.getD j 0 := by
  have hi : i < s.length := lt_of_le_of_lt hij hj
  rw [List.getD_eq_getElem?_getD, List.getD_eq_getElem?_getD,
    List.getElem?_eq_getElem hi, List.getElem?_eq_getElem hj]
  have hf : (⟨i, hi⟩ : Fin s.length) ≤ ⟨j, hj⟩ := hij
  simpa using hs.rel_get_of_le hf

/-- Monotonicity of the linear-interpolation rule on a sorted list: a larger
interpolation position yields a value at least as large. -/
theorem interp_mono {s : List α} (hs : s.Sorted (· ≤ ·)) {k₁ k₂ den : ℕ}
    (hden : 0 < den) (hk12 : k₁ ≤ k₂) (hk2 : k₂ ≤ (s.length - 1) * den) :
    s.getD (k₁ / den) 0 +
        ((k₁ % den : ℕ) : α) / (den : α) * (s.getD (k₁ / den + 1) 0 - s.getD (k₁ / den) 0) ≤
      s.getD (k₂ / den) 0 +
        ((k₂ % den : ℕ) : α) / (den : α) * (s.getD (k₂ / den + 1) 0 - s.getD (k₂ / den) 0) := by
  rcases List.eq_nil_or_concat s with rfl | hne
  · simp
  have hn : 0 < s.length := by
    rcases hne with ⟨l, b, rfl⟩
    simp
  set n := s.length with hndef
  set m := n - 1 with hmdef
  have hdenα : (0 : α) < (den : α) := by exact_mod_cast hden
  have hboundary : ∀ k : ℕ, k ≤ m * den → k / den = m → k % den = 0 := by
    intro k hk hkd
    have e := Nat.div_add_mod k den
    rw [hkd] at e
    rw [Nat.mul_comm m den] at hk
    generalize den * m = Q at e hk
    omega
  have hi2m : k₂ / den ≤ m := by
    have h1 : k₂ / den ≤ m * den / den := Nat.div_le_div_right hk2
    have h2 : m * den / den = m := by
      rw [Nat.mul_comm]
      exact Nat.mul_div_cancel_left m hden
    omega
  have hi1m : k₁ / den ≤ m := le_trans (Nat.div_le_div_right hk12) hi2m
  have hg_nonneg : ∀ k : ℕ, (0 : α) ≤ ((k % den : ℕ) : α) / (den : α) := by
    intro k
    exact div_nonneg (Nat.cast_nonneg _) (le_of_lt hdenα)
  have hg_le_one : ∀ k : ℕ, ((k % den : ℕ) : α) / (den : α) ≤ 1 := by
    intro k
    rw [div_le_one hdenα]
    exact_mod_cast le_of_lt (Nat.mod_lt _ hden)
  have hm_lt : m < n := by omega
  rcases eq_or_lt_of_le (Nat.div_le_div_right hk12 : k₁ / den ≤ k₂ / den) with heq | hlt
  · -- same interpolation cell
    rw [← heq]
    rcases eq_or_lt_of_le hi1m with him | him
    · -- at the top: both fractional parts are 0
      have h1 := hboundary k₁ (le_trans hk12 hk2) him
      have h2 := hboundary k₂ hk2 (heq ▸ him)
      rw [h1, h2]
    · -- interior cell: fractional parts are ordered and the cell is ascending
      have hAB : s.getD (k₁ / den) 0 ≤ s.getD (k₁ / den + 1) 0 :=
        sorted_getD_mono hs (Nat.le_succ _) (by omega)
      have hr12 : k₁ % den ≤ k₂ % den := by
        have e1 := Nat.div_add_mod k₁ den
        have e2 := Nat.div_add_mod k₂ den
        rw [heq] at e1
        generalize den * (k₂ / den) = Q at e1 e2
        omega
      have hgg : ((k₁ % den : ℕ) : α) / (den : α) ≤ ((k₂ % den : ℕ) : α) / (den : α) := by
        apply (div_le_div_iff_of_pos_right hdenα).mpr
        exact_mod_cast hr12
      nlinarith [mul_le_mul_of_nonneg_right hgg (sub_nonneg.mpr hAB)]
  · -- strictly later cell
    have hi1_lt_m : k₁ / den < m := lt_of_lt_of_le hlt hi2m
    have hAB1 : s.getD (k₁ / den) 0 ≤ s.getD (k₁ / den + 1) 0 :=
      sorted_getD_mono hs (Nat.le_succ _) (by omega)
    have step1 : s.getD (k₁ / den) 0 +
        ((k₁ % den : ℕ) : α) / (den : α) * (s.getD (k₁ / den + 1) 0 - s.getD (k₁ / den) 0) ≤
        s.getD (k₁ / den + 1) 0 := by
      nlinarith [mul_le_mul_of_nonneg_right (hg_le_one k₁) (sub_nonneg.mpr hAB1),
        hg_nonneg k₁]
    have step2 : s.getD (k₁ / den + 1) 0 ≤ s.getD (k₂ / den) 0 :=
      sorted_getD_mono hs (by omega) (by omega)
    have step3 : s.getD (k₂ / den) 0 ≤ s.getD (k₂ / den) 0 +
        ((k₂ % den : ℕ) : α) / (den : α) * (s.getD (k₂ / den + 1) 0 - s.getD (k₂ / den) 0) := by
      rcases eq_or_lt_of_le hi2m with him | him
      · rw [hboundary k₂ hk2 him]
        simp
      · have hAB2 : s.getD (k₂ / den) 0 ≤ s.getD (k₂ / den + 1) 0 :=
          sorted_getD_mono hs (Nat.le_succ _) (by omega)
        nlinarith [mul_nonneg (hg_nonneg k₂) (sub_nonneg.mpr hAB2)]
    linarith

/-- The pandas quantile is monotone in the fraction. -/
theorem pandas_quantile_mono (xs : List α) {num₁ num₂ den : ℕ} (hden : 0 < den)
    (h12 : num₁ ≤ num₂) (h2 : num₂ ≤ den) :
    pandas_quantile xs num₁ den ≤ pandas_quantile xs num₂ den := by
  have hs : (sortVals xs).Sorted (· ≤ ·) := List.sorted_insertionSort _ xs
  have hmono := interp_mono hs hden
    (Nat.mul_le_mul_left ((sortVals xs).length - 1) h12)
    (Nat.mul_le_mul_left ((sortVals xs).length - 1) h2)
  simpa [pandas_quantile] using hmono

omit [LinearOrderedField α] in
theorem maskFilter_map_false {β γ : Type} (xs : List β) (ys : List γ) :
    maskFilter xs (ys.map (fun _ => false)) = [] := by
  induction xs generalizing ys with
  | nil => simp [maskFilter]
  | cons a l ih =>
    cases ys with
    | nil => simp [maskFilter]
    | cons b m => simpa [maskFilter] using ih m

theorem setCells_getD_ne (p : α → Bool) (w : α) {i j : Nat} {vs : List α}
    (hj : j < vs.length) (hne : j ≠ i) :
    (setCells p w i vs).getD j 0 = vs.getD j 0 := by
  induction i generalizing j vs with
  | zero =>
    cases vs with
    | nil => simp at hj
    | cons v rest =>
      cases j with
      | zero => exact absurd rfl hne
      | succ m => simp [setCells]
  | succ n ih =>
    cases vs with
    | nil => simp at hj
    | cons v rest =>
      cases j with
      | zero => simp [setCells]
      | succ m =>
        simp only [setCells, List.getD_cons_succ]
        exact ih (by simpa using hj) (by omega)

theorem setCells_getD_self (p : α → Bool) (w : α) {i : Nat} {vs : List α}
    (hi : i < vs.length) :
    (setCells p w i vs).getD i 0 = if p (vs.getD i 0) then w else vs.getD i 0 := by
  induction i generalizing vs with
  | zero =>
    cases vs with
    | nil => simp at hi
    | cons v rest => simp [setCells]
  | succ n ih =>
    cases vs with
    | nil => simp at hi
    | cons v rest =>
      simp only [setCells, List.getD_cons_succ]
      exact ih (by simpa using hi)

omit [LinearOrderedField α] in
theorem rows_map_getD {β : Type} (rows : List (Nat × List α)) (f : Nat × List α → Nat × List β)
    {k : Nat} (hk : k < rows.length) :
    (rows.map f).getD k (0, []) = f (rows.getD k (0, [])) := by
  have hk' : k < (rows.map f).length := by rw [List.length_map]; exact hk
  rw [List.getD_eq_getElem?_getD, List.getD_eq_getElem?_getD,
    List.getElem?_eq_getElem hk, List.getElem?_eq_getElem hk']
  simp

theorem dispatchMethod_of_iqr {s : α → α} {df : Dataset α} {column using_ : String}
    {loc : Option (HLoc α)} (hm : pyStripUpper using_ = "IQR") :
    dispatchMethod s df column using_ loc =
      match iqr_column df column with
      | .error e => .error e
      | .ok (u, l, out) => .ok (some (u, l, out.map Prod.fst)) := by
  rw [dispatchMethod, hm]
  cases h : iqr_column df column with
  | error e => simp [h]
  | ok t =>
    obtain ⟨u, l, out⟩ := t
    simp [h, show ("IQR" : String) ≠ "Z" from by decide]

theorem dispatchMethod_of_z {s : α → α} {df : Dataset α} {column using_ : String}
    {loc : Option (HLoc α)} (hm : pyStripUpper using_ = "Z") :
    dispatchMethod s df column using_ loc =
      match z_column s df column with
      | .error e => .error e
      | .ok (u, l, out) => .ok (some (u, l, out.map Prod.fst)) := by
  rw [dispatchMethod, hm]
  cases h : z_column s df column with
  | error e => simp [h, show ("Z" : String) ≠ "IQR" from by decide]
  | ok t =>
    obtain ⟨u, l, out⟩ := t
    simp [h, show ("Z" : String) ≠ "IQR" from by decide]

theorem dispatchMethod_of_invalid {s : α → α} {df : Dataset α} {column using_ : String}
    {loc : Option (HLoc α)} (h1 : pyStripUpper using_ ≠ "IQR")
    (h2 : pyStripUpper using_ ≠ "Z") :
    dispatchMethod s df column using_ loc = .ok loc := by
  rw [dispatchMethod]
  simp [h1, h2]

theorem iqr_column_bounds_le {df : Dataset α} {column : String} {u l : α}
    {out : List (Nat × α)} (h : iqr_column df column = .ok (u, l, out)) : l ≤ u := by
  cases hg : getCol df column with
  | none => rw [iqr_column, hg] at h; exact absurd h (by simp)
  | some feature =>
    rw [iqr_column, hg] at h
    simp only [Except.ok.injEq, Prod.mk.injEq] at h
    obtain ⟨hu, hl, -⟩ := h
    have hq : pandas_quantile (feature.map Prod.snd) 1 4 ≤
        pandas_quantile (feature.map Prod.snd) 3 4 :=
      pandas_quantile_mono _ (by norm_num) (by norm_num) (by norm_num)
    rw [← hu, ← hl]
    nlinarith

theorem z_column_bounds_le {df : Dataset ℝ} {column : String} {u l : ℝ}
    {out : List (Nat × ℝ × ℝ)} (h : z_column Real.sqrt df column = .ok (u, l, out)) :
    l ≤ u := by
  cases hg : getCol df column with
  | none => rw [z_column, hg] at h; exact absurd h (by simp)
  | some feature =>
    rw [z_column, hg] at h
    simp only [Except.ok.injEq, Prod.mk.injEq] at h
    obtain ⟨hu, hl, -⟩ := h
    have := Real.sqrt_nonneg (popVar (feature.map Prod.snd))
    rw [← hu, ← hl, np_std]
    linarith

theorem dispatch_some_bounds_le {df : Dataset ℝ} {column using_ : String}
    {u l : ℝ} {labels : List Nat}
    (h : dispatchMethod Real.sqrt df column using_ none = .ok (some (u, l, labels))) :
    l ≤ u := by
  by_cases hIQR : pyStripUpper using_ = "IQR"
  · rw [dispatchMethod_of_iqr hIQR] at h
    cases hq : iqr_column df column with
    | error e => rw [hq] at h; exact absurd h (by simp)
    | ok t =>
      obtain ⟨u', l', out'⟩ := t
      rw [hq] at h
      simp only [Except.ok.injEq, Option.some.injEq, Prod.mk.injEq] at h
      obtain ⟨rfl, rfl, -⟩ := h
      exact iqr_column_bounds_le hq
  by_cases hZ : pyStripUpper using_ = "Z"
  · rw [dispatchMethod_of_z hZ] at h
    cases hq : z_column Real.sqrt df column with
    | error e => rw [hq] at h; exact absurd h (by simp)
    | ok t =>
      obtain ⟨u', l', out'⟩ := t
      rw [hq] at h
      simp only [Except.ok.injEq, Option.some.injEq, Prod.mk.injEq] at h
      obtain ⟨rfl, rfl, -⟩ := h
      exact z_column_bounds_le hq
  · rw [dispatchMethod_of_invalid hIQR hZ] at h
    exact absurd h (by simp)

/-- Evaluation of a single-column `handle_outliers` call with action
`'remove'` once the method dispatch has assigned the locals. -/
theorem handle_remove_eq {s : α → α} {df : Dataset α} {colA using_ : String}
    {u l : α} {labels : List Nat}
    (h : dispatchMethod s df colA using_ none = .ok (some (u, l, labels))) :
    handle_outliers s df (.str colA) using_ "remove" =
      .ok (dropRows df labels, [("remove", colA, labels)]) := by
  rw [handle_outliers, handleColumns, handleLoop, hstep]
  simp only [h]
  simp [doRemove, doCompress, handleLoop,
    show ("remove" : String) ≠ "compress" from by decide]

/-- Evaluation of a single-column `handle_outliers` call with action
`'compress'` once the method dispatch has assigned the locals. -/
theorem handle_compress_eq {s : α → α} {df : Dataset α} {colA using_ : String}
    {u l : α} {labels : List Nat} {i : Nat}
    (h : dispatchMethod s df colA using_ none = .ok (some (u, l, labels)))
    (hi : colIdx df colA = some i) :
    handle_outliers s df (.str colA) using_ "compress" =
      .ok (clampCol df i u l, [("compress", colA, labels)]) := by
  rw [handle_outliers, handleColumns, handleLoop, hstep]
  simp only [h]
  simp [doRemove, doCompress, handleLoop, hi,
    show ("compress" : String) ≠ "remove" from by decide]

/-- Re-clamping one row's cells with the same limits changes nothing. -/
theorem clampCells_idem (u l : α) :
    ∀ (i : Nat) (vs : List α),
      setCells (fun v => decide (v < l)) l i (setCells (fun v => decide (u < v)) u i
        (setCells (fun v => decide (v < l)) l i
          (setCells (fun v => decide (u < v)) u i vs))) =
      setCells (fun v => decide (v < l)) l i
        (setCells (fun v => decide (u < v)) u i vs) := by
  intro i
  induction i with
  | zero =>
    intro vs
    cases vs with
    | nil => simp [setCells]
    | cons v rest =>
      simp only [setCells]
      simp only [decide_eq_true_eq]
      split_ifs <;> rfl
  | succ n ih =>
    intro vs
    cases vs with
    | nil => simp [setCells]
    | cons v rest => simp [setCells, ih]

omit [LinearOrderedField α] in
theorem filterMap_filter_comm {i : Nat} {labels : List Nat} (rows : List (Nat × List α)) :
    (rows.filter (fun r => !(labels.contains r.1))).filterMap
        (fun r => (r.2[i]?).map (fun v => (r.1, v))) =
      (rows.filterMap (fun r => (r.2[i]?).map (fun v => (r.1, v)))).filter
        (fun r => !(labels.contains r.1)) := by
  induction rows with
  | nil => simp
  | cons a l ih =>
    by_cases hc : a.1 ∈ labels
    · cases ha : a.2[i]? <;>
        (simp [List.filter_cons, List.filterMap_cons, ha, hc]; simpa using ih)
    · cases ha : a.2[i]? <;>
        (simp [List.filter_cons, List.filterMap_cons, ha, hc]; simpa using ih)

omit [LinearOrderedField α] in
/-- Dropping rows commutes with column extraction: the surviving series is
the label-filtered series. -/
theorem getCol_dropRows {df : Dataset α} {c : String} {labels : List Nat}
    {feature : List (Nat × α)} (hf : getCol df c = some feature) :
    getCol (dropRows df labels) c =
      some (feature.filter (fun r => !(labels.contains r.1))) := by
  rw [getCol] at hf ⊢
  cases hci : colIdx df c with
  | none => rw [hci] at hf; exact absurd hf (by simp)
  | some i =>
    have hci' : colIdx (dropRows df labels) c = some i := by
      simpa [colIdx, dropRows] using hci
    rw [hci] at hf
    rw [hci']
    simp only [Option.some.injEq] at hf
    rw [dropRows]
    simp only
    rw [filterMap_filter_comm, hf]

/-- A row of the column that the IQR mask does not flag lies within the
fences. -/
theorem iqr_survivor_bounds {df : Dataset α} {column : String} {u l : α}
    {out : List (Nat × α)} {feature : List (Nat × α)}
    (h : iqr_column df column = .ok (u, l, out))
    (hg : getCol df column = some feature) :
    ∀ r ∈ feature, ¬ ((out.map Prod.fst).contains r.1 = true) → l ≤ r.2 ∧ r.2 ≤ u := by
  rw [iqr_column, hg] at h
  simp only [Except.ok.injEq, Prod.mk.injEq] at h
  obtain ⟨hu, hl, hout⟩ := h
  subst hu hl hout
  intro r hr hnc
  by_contra hcon
  have hflag := not_and_or.mp hcon
  have hmem : r ∈ feature.filter (fun r => decide (r.2 <
      pandas_quantile (feature.map Prod.snd) 1 4 -
        (3 / 2 : α) * (pandas_quantile (feature.map Prod.snd) 3 4 -
          pandas_quantile (feature.map Prod.snd) 1 4) ∨ r.2 >
      pandas_quantile (feature.map Prod.snd) 3 4 +
        (3 / 2 : α) * (pandas_quantile (feature.map Prod.snd) 3 4 -
          pandas_quantile (feature.map Prod.snd) 1 4))) := by
    refine List.mem_filter.mpr ⟨hr, ?_⟩
    simp only [decide_eq_true_eq]
    rcases hflag with h' | h'
    · exact Or.inl (lt_of_not_le h')
    · exact Or.inr (lt_of_not_le h')
  exact hnc (by
    simp only [List.contains_eq_any_beq, List.any_eq_true]
    exact ⟨r.1, List.mem_map.mpr ⟨r, hmem, rfl⟩, by simp⟩)

/-- A row of the column that the Z-score mask does not flag lies within the
`mean ± 3·std` limits. -/
theorem z_survivor_bounds {df : Dataset ℝ} {column : String} {u l : ℝ}
    {out : List (Nat × ℝ × ℝ)} {feature : List (Nat × ℝ)}
    (h : z_column Real.sqrt df column = .ok (u, l, out))
    (hg : getCol df column = some feature) :
    ∀ r ∈ feature, ¬ ((out.map Prod.fst).contains r.1 = true) → l ≤ r.2 ∧ r.2 ≤ u := by
  rw [z_column, hg] at h
  simp only [Except.ok.injEq, Prod.mk.injEq] at h
  obtain ⟨hu, hl, hout⟩ := h
  set μ := np_mean (feature.map Prod.snd) with hμ
  set σ := np_std Real.sqrt (feature.map Prod.snd) with hσ
  have hσ0 : 0 ≤ σ := Real.sqrt_nonneg _
  intro r hr hnc
  have hmem_of_flag : |(r.2 - μ) / σ| > 3 → False := by
    intro hflag
    have hmem : (r.1, r.2, (r.2 - μ) / σ) ∈ out := by
      rw [← hout, maskFilter_zipWith_eq_filterMap feature
        (fun r => (r.1, (r.2 - μ) / σ)) (fun p => decide (|p.2| > 3))
        (fun a b => (a.1, a.2, b.2))]
      exact List.mem_filterMap.mpr ⟨r, hr, by simp [hflag]⟩
    exact hnc (by
      simp only [List.contains_eq_any_beq, List.any_eq_true]
      exact ⟨r.1, List.mem_map.mpr ⟨_, hmem, rfl⟩, by simp⟩)
  rcases eq_or_lt_of_le hσ0 with hσz | hσpos
  · -- zero spread: every value equals the mean and the limits collapse
    have hvar : popVar (feature.map Prod.snd) = 0 := by
      have h2 : σ ^ 2 = popVar (feature.map Prod.snd) := by
        rw [hσ, np_std, Real.sq_sqrt (popVar_nonneg _)]
      rw [← h2, ← hσz]
      norm_num
    have hne : feature.map Prod.snd ≠ [] := by
      intro hnil
      rw [List.map_eq_nil_iff] at hnil
      subst hnil
      simp at hr
    have hall := eq_mean_of_popVar_eq_zero hne hvar
    have hrv : r.2 = μ := hall r.2 (List.mem_map.mpr ⟨r, hr, rfl⟩)
    constructor
    · rw [← hl, ← hσz, hrv]; linarith
    · rw [← hu, ← hσz, hrv]; linarith
  · constructor
    · by_contra hlt
      push_neg at hlt
      have hz : (r.2 - μ) / σ < -3 := by
        rw [div_lt_iff₀ hσpos]
        rw [← hl] at hlt
        linarith
      exact hmem_of_flag (lt_abs.mpr (Or.inr (by linarith)))
    · by_contra hgt
      push_neg at hgt
      have hz : 3 < (r.2 - μ) / σ := by
        rw [lt_div_iff₀ hσpos]
        rw [← hu] at hgt
        linarith
      exact hmem_of_flag (lt_abs.mpr (Or.inl hz))

/-- A row the dispatched method did not flag lies within the dispatched
limits, whichever method was selected. -/
theorem dispatch_survivor_bounds {df : Dataset ℝ} {column using_ : String}
    {u l : ℝ} {labels : List Nat} {feature : List (Nat × ℝ)}
    (h : dispatchMethod Real.sqrt df column using_ none = .ok (some (u, l, labels)))
    (hg : getCol df column = some feature) :
    ∀ r ∈ feature, ¬ (labels.contains r.1 = true) → l ≤ r.2 ∧ r.2 ≤ u := by
  by_cases hIQR : pyStripUpper using_ = "IQR"
  · rw [dispatchMethod_of_iqr hIQR] at h
    cases hq : iqr_column df column with
    | error e => rw [hq] at h; exact absurd h (by simp)
    | ok t =>
      obtain ⟨u', l', out'⟩ := t
      rw [hq] at h
      simp only [Except.ok.injEq, Option.some.injEq, Prod.mk.injEq] at h
      obtain ⟨rfl, rfl, rfl⟩ := h
      exact iqr_survivor_bounds hq hg
  by_cases hZ : pyStripUpper using_ = "Z"
  · rw [dispatchMethod_of_z hZ] at h
    cases hq : z_column Real.sqrt df column with
    | error e => rw [hq] at h; exact absurd h (by simp)
    | ok t =>
      obtain ⟨u', l', out'⟩ := t
      rw [hq] at h
      simp only [Except.ok.injEq, Option.some.injEq, Prod.mk.injEq] at h
      obtain ⟨rfl, rfl, rfl⟩ := h
      exact z_survivor_bounds hq hg
  · rw [dispatchMethod_of_invalid hIQR hZ] at h
    exact absurd h (by simp)

end MLBasic

namespace MLBasic

/-! ### Claims -/

/-- Claim C1: for every numeric column, `outliers_z_score`'s per-column
computation uses the arithmetic mean μ and the population standard
deviation σ (the square root of the mean squared deviation), returns the
limits `lower = μ − 3σ` and `upper = μ + 3σ`, and flags a row exactly when
`|(value − μ)/σ| > 3`, returning the flagged rows' original values paired
with their Z-scores in the column's row order. -/
theorem C1_z_score_spec (df : Dataset ℝ) (c : String)
    (feature : List (Nat × ℝ)) (u l : ℝ) (out : List (Nat × ℝ × ℝ))
    (hf : getCol df c = some feature)
    (h : z_column Real.sqrt df c = .ok (u, l, out)) :
    np_mean (feature.map Prod.snd) =
        (feature.map Prod.snd).sum / (feature.map Prod.snd).length ∧
    0 ≤ np_std Real.sqrt (feature.map Prod.snd) ∧
    (np_std Real.sqrt (feature.map Prod.snd)) ^ 2 =
      ((feature.map Prod.snd).map
          (fun v => (v - np_mean (feature.map Prod.snd)) ^ 2)).sum /
        (feature.map Prod.snd).length ∧
    l = np_mean (feature.map Prod.snd) - 3 * np_std Real.sqrt (feature.map Prod.snd) ∧
    u = np_mean (feature.map Prod.snd) + 3 * np_std Real.sqrt (feature.map Prod.snd) ∧
    out = feature.filterMap (fun r =>
      if |(r.2 - np_mean (feature.map Prod.snd)) /
            np_std Real.sqrt (feature.map Prod.snd)| > 3
      then some (r.1, r.2, (r.2 - np_mean (feature.map Prod.snd)) /
            np_std Real.sqrt (feature.map Prod.snd))
      else none) := by
  rw [z_column, hf] at h
  simp only [Except.ok.injEq, Prod.mk.injEq] at h
  obtain ⟨hu, hl, hout⟩ := h
  refine ⟨rfl, Real.sqrt_nonneg _, ?_, ?_, ?_, ?_⟩
  · rw [np_std, Real.sq_sqrt (popVar_nonneg _)]
    rfl
  · rw [← hl]; ring
  · rw [← hu]; ring
  · rw [← hout]
    rw [maskFilter_zipWith_eq_filterMap feature
      (fun r => (r.1, (r.2 - np_mean (feature.map Prod.snd)) /
        np_std Real.sqrt (feature.map Prod.snd)))
      (fun p => decide (|p.2| > 3))
      (fun a b => (a.1, a.2, b.2))]
    simp only [decide_eq_true_eq]

/-- Claim C2: for every numeric column, `outliers_IQR`'s per-column
computation takes Q1 and Q3 as the 25% and 75% linear-interpolation
quantiles (the same `describe` convention as the descriptive-statistics
routine `five_point_summary`), returns the Tukey fences
`lower = Q1 − 1.5·(Q3 − Q1)` and `upper = Q3 + 1.5·(Q3 − Q1)`, and flags a
row exactly when its value is `< lower` or `> upper`, returning the flagged
rows' raw values in row order (a sublist of the column). -/
theorem C2_iqr_spec (df : Dataset ℝ) (c : String)
    (feature : List (Nat × ℝ)) (u l : ℝ) (out : List (Nat × ℝ))
    (hf : getCol df c = some feature)
    (h : iqr_column df c = .ok (u, l, out)) :
    u = pandas_quantile (feature.map Prod.snd) 3 4 +
        (3 / 2 : ℝ) * (pandas_quantile (feature.map Prod.snd) 3 4 -
          pandas_quantile (feature.map Prod.snd) 1 4) ∧
    l = pandas_quantile (feature.map Prod.snd) 1 4 -
        (3 / 2 : ℝ) * (pandas_quantile (feature.map Prod.snd) 3 4 -
          pandas_quantile (feature.map Prod.snd) 1 4) ∧
    out = feature.filter (fun r => decide (r.2 < l ∨ r.2 > u)) ∧
    out.Sublist feature ∧
    (∀ r, r ∈ out ↔ r ∈ feature ∧ (r.2 < l ∨ r.2 > u)) := by
  rw [iqr_column, hf] at h
  simp only [Except.ok.injEq, Prod.mk.injEq] at h
  obtain ⟨hu, hl, hout⟩ := h
  subst hu hl
  refine ⟨rfl, rfl, hout.symm, ?_, ?_⟩
  · rw [← hout]
    exact List.filter_sublist feature
  · intro r
    rw [← hout]
    simp [List.mem_filter]

/-- Claim C7: for a column of identical values (zero spread),
`outliers_z_score` returns `lower = upper = mean` and flags no row: in the
source the Z-scores come from an unguarded division by the zero standard
deviation (non-finite in numpy, `x / 0 = 0` in this model), and in both
semantics the `|Z| > 3` mask is everywhere false. -/
theorem C7_zero_spread (df : Dataset ℝ) (c : String) (v : ℝ)
    (feature : List (Nat × ℝ))
    (hf : getCol df c = some feature) (hne : feature ≠ [])
    (hall : ∀ r ∈ feature, r.2 = v) :
    z_column Real.sqrt df c = .ok (v, v, []) := by
  have hvals : ∀ x ∈ feature.map Prod.snd, x = v := by
    intro x hx
    obtain ⟨r, hr, rfl⟩ := List.mem_map.mp hx
    exact hall r hr
  have hvne : feature.map Prod.snd ≠ [] := by
    simpa using hne
  have hmean : np_mean (feature.map Prod.snd) = v := mean_of_const hvne hvals
  have hvar : popVar (feature.map Prod.snd) = 0 := popVar_of_const hvne hvals
  rw [z_column, hf]
  simp only [np_std, hvar, Real.sqrt_zero, hmean, div_zero, abs_zero]
  norm_num
  have hm : List.map ((fun (r : Nat × ℝ) => decide (3 < |r.2|)) ∘
      (fun (r : Nat × ℝ) => (r.1, (0 : ℝ)))) feature =
      List.map (fun _ => false) feature := by
    apply List.map_congr_left
    intro r _
    norm_num [Function.comp]
  rw [hm]
  exact Or.inl (maskFilter_map_false _ _)

/-- Witness for C1: the one-column dataset `[0, 0, 2, 2]` (mean 1,
population standard deviation 1, limits −2 and 4, no outliers). -/
theorem C1_witness :
    getCol (⟨["A"], [(0, [0]), (1, [0]), (2, [2]), (3, [2])]⟩ : Dataset ℝ) "A" =
      some [(0, 0), (1, 0), (2, 2), (3, 2)] ∧
    z_column Real.sqrt
      (⟨["A"], [(0, [0]), (1, [0]), (2, [2]), (3, [2])]⟩ : Dataset ℝ) "A" =
      .ok (4, -2, []) ∧
    (-2 : ℝ) = np_mean ([(0, (0 : ℝ)), (1, 0), (2, 2), (3, 2)].map Prod.snd) -
      3 * np_std Real.sqrt ([(0, (0 : ℝ)), (1, 0), (2, 2), (3, 2)].map Prod.snd) := by
  have hf : getCol (⟨["A"], [(0, [0]), (1, [0]), (2, [2]), (3, [2])]⟩ : Dataset ℝ) "A" =
      some [(0, 0), (1, 0), (2, 2), (3, 2)] := by
    norm_num [getCol, colIdx, List.findIdx?, List.findIdx?_cons, List.filterMap_cons]
  have h : z_column Real.sqrt
      (⟨["A"], [(0, [0]), (1, [0]), (2, [2]), (3, [2])]⟩ : Dataset ℝ) "A" =
      .ok (4, -2, []) := by
    norm_num [z_column, getCol, colIdx, np_mean, popVar, np_std, maskFilter,
      List.findIdx?, List.findIdx?_cons, List.filterMap_cons, List.filter_cons,
      List.zip, List.zipWith, decide_eq_true_eq, Real.sqrt_one]
  exact ⟨hf, h, (C1_z_score_spec _ _ _ _ _ _ hf h).2.2.2.1⟩

/-- Witness for C2: the spec's concrete scenario `[1, 2, 3, 4, 5, 100]`
(Q1 = 2.25, Q3 = 4.75, fences −1.5 and 8.5, flagged value 100). -/
theorem C2_witness :
    getCol (⟨["x"], [(0, [1]), (1, [2]), (2, [3]), (3, [4]), (4, [5]), (5, [100])]⟩ :
        Dataset ℝ) "x" =
      some [(0, 1), (1, 2), (2, 3), (3, 4), (4, 5), (5, 100)] ∧
    iqr_column (⟨["x"], [(0, [1]), (1, [2]), (2, [3]), (3, [4]), (4, [5]), (5, [100])]⟩ :
        Dataset ℝ) "x" =
      .ok (17 / 2, -(3 / 2), [(5, 100)]) ∧
    List.Sublist [((5 : ℕ), (100 : ℝ))]
      [(0, 1), (1, 2), (2, 3), (3, 4), (4, 5), (5, 100)] := by
  have hf : getCol (⟨["x"], [(0, [1]), (1, [2]), (2, [3]), (3, [4]), (4, [5]), (5, [100])]⟩ :
      Dataset ℝ) "x" = some [(0, 1), (1, 2), (2, 3), (3, 4), (4, 5), (5, 100)] := by
    norm_num [getCol, colIdx, List.findIdx?, List.findIdx?_cons, List.filterMap_cons]
  have h : iqr_column (⟨["x"], [(0, [1]), (1, [2]), (2, [3]), (3, [4]), (4, [5]), (5, [100])]⟩ :
      Dataset ℝ) "x" = .ok (17 / 2, -(3 / 2), [(5, 100)]) := by
    norm_num [iqr_column, getCol, colIdx, pandas_quantile, sortVals,
      List.insertionSort, List.orderedInsert, List.findIdx?, List.findIdx?_cons,
      List.filterMap_cons, List.filter_cons, Bool.or_eq_true, decide_eq_true_eq]
  exact ⟨hf, h, (C2_iqr_spec _ _ _ _ _ _ hf h).2.2.2.1⟩

/-- Witness for C7: the spec's zero-spread scenario `[10, 10, 10, 10, 10]`. -/
theorem C7_witness :
    getCol (⟨["A"], [(0, [10]), (1, [10]), (2, [10]), (3, [10]), (4, [10])]⟩ :
        Dataset ℝ) "A" =
      some [(0, 10), (1, 10), (2, 10), (3, 10), (4, 10)] ∧
    z_column Real.sqrt
      (⟨["A"], [(0, [10]), (1, [10]), (2, [10]), (3, [10]), (4, [10])]⟩ : Dataset ℝ) "A" =
      .ok (10, 10, []) := by
  have hf : getCol (⟨["A"], [(0, [10]), (1, [10]), (2, [10]), (3, [10]), (4, [10])]⟩ :
      Dataset ℝ) "A" = some [(0, 10), (1, 10), (2, 10), (3, 10), (4, 10)] := by
    norm_num [getCol, colIdx, List.findIdx?, List.findIdx?_cons, List.filterMap_cons]
  refine ⟨hf, C7_zero_spread _ _ 10 _ hf (by simp) ?_⟩
  intro r hr
  simp only [List.mem_cons, List.not_mem_nil, or_false] at hr
  rcases hr with rfl | rfl | rfl | rfl | rfl <;> rfl

/-- Claim C3: when `handle_outliers` with action `'remove'` deletes a
flagged row, the whole row disappears from the dataset — its value in every
other column goes with it — while every row not flagged in the inspected
column keeps all of its cells.  The hypothesis names the locals assigned by
the method dispatch (so the method token, after strip/upper, is `'Z'` or
`'IQR'` and the column exists). -/
theorem C3_remove_cross_column (df : Dataset ℝ) (colA using_ : String)
    (u l : ℝ) (labels : List Nat)
    (h : dispatchMethod Real.sqrt df colA using_ none = .ok (some (u, l, labels))) :
    handle_outliers Real.sqrt df (.str colA) using_ "remove" =
      .ok (dropRows df labels, [("remove", colA, labels)]) ∧
    (dropRows df labels).cols = df.cols ∧
    (dropRows df labels).rows = df.rows.filter (fun r => !(labels.contains r.1)) ∧
    (∀ r ∈ df.rows, labels.contains r.1 → r ∉ (dropRows df labels).rows) ∧
    (∀ r ∈ df.rows, ¬ (labels.contains r.1 = true) → r ∈ (dropRows df labels).rows) := by
  refine ⟨handle_remove_eq h, rfl, rfl, ?_, ?_⟩
  · intro r hr hcont
    rw [dropRows]
    simp only [List.mem_filter]
    rintro ⟨-, hno⟩
    rw [hcont] at hno
    exact absurd hno (by simp)
  · intro r hr hno
    rw [dropRows]
    simp only [List.mem_filter]
    exact ⟨hr, by simpa using hno⟩

/-- Witness for C3: removing via IQR on a two-column dataset whose first
column flags the row labelled 3 (Q1 = 1.75, Q3 = 27.25, upper fence 65.5). -/
theorem C3_witness :
    dispatchMethod Real.sqrt
      (⟨["A", "B"], [(0, [1, 10]), (1, [2, 20]), (2, [3, 30]), (3, [100, 40])]⟩ : Dataset ℝ)
      "A" "IQR" none = .ok (some (131 / 2, -(73 / 2), [3])) ∧
    handle_outliers Real.sqrt
      (⟨["A", "B"], [(0, [1, 10]), (1, [2, 20]), (2, [3, 30]), (3, [100, 40])]⟩ : Dataset ℝ)
      (.str "A") "IQR" "remove" =
      .ok (dropRows
        (⟨["A", "B"], [(0, [1, 10]), (1, [2, 20]), (2, [3, 30]), (3, [100, 40])]⟩ : Dataset ℝ)
        [3], [("remove", "A", [3])]) := by
  have h : dispatchMethod Real.sqrt
      (⟨["A", "B"], [(0, [1, 10]), (1, [2, 20]), (2, [3, 30]), (3, [100, 40])]⟩ : Dataset ℝ)
      "A" "IQR" none = .ok (some (131 / 2, -(73 / 2), [3])) := by
    rw [dispatchMethod_of_iqr (by decide)]
    norm_num [iqr_column, getCol, colIdx, pandas_quantile, sortVals,
      List.insertionSort, List.orderedInsert, List.findIdx?, List.findIdx?_cons,
      List.filterMap_cons, List.filter_cons, Bool.or_eq_true, decide_eq_true_eq]
  exact ⟨h, (C3_remove_cross_column _ _ _ _ _ _ h).1⟩

/-- Claim C4: `handle_outliers` with action `'compress'` rewrites, in the
target column only, every cell above the computed upper limit to `upper`
and every cell below the computed lower limit to `lower`; every cell of
every other column, and every in-range cell of the target column, is
unchanged, and the row count is unchanged. -/
theorem C4_compress_frame (df : Dataset ℝ) (colA using_ : String)
    (u l : ℝ) (labels : List Nat) (i : Nat)
    (h : dispatchMethod Real.sqrt df colA using_ none = .ok (some (u, l, labels)))
    (hi : colIdx df colA = some i) :
    handle_outliers Real.sqrt df (.str colA) using_ "compress" =
      .ok (clampCol df i u l, [("compress", colA, labels)]) ∧
    (clampCol df i u l).cols = df.cols ∧
    (clampCol df i u l).rows.length = df.rows.length ∧
    (∀ k, k < df.rows.length →
      ((clampCol df i u l).rows.getD k (0, [])).1 = (df.rows.getD k (0, [])).1 ∧
      ((clampCol df i u l).rows.getD k (0, [])).2.length =
        (df.rows.getD k (0, [])).2.length ∧
      (∀ j, j < (df.rows.getD k (0, [])).2.length → j ≠ i →
        ((clampCol df i u l).rows.getD k (0, [])).2.getD j 0 =
          (df.rows.getD k (0, [])).2.getD j 0) ∧
      (i < (df.rows.getD k (0, [])).2.length →
        ((clampCol df i u l).rows.getD k (0, [])).2.getD i 0 =
          (if u < (df.rows.getD k (0, [])).2.getD i 0 then u
           else if (df.rows.getD k (0, [])).2.getD i 0 < l then l
           else (df.rows.getD k (0, [])).2.getD i 0))) := by
  have hlu : l ≤ u := dispatch_some_bounds_le h
  refine ⟨handle_compress_eq h hi, rfl, ?_, ?_⟩
  · simp [clampCol, setWhere]
  · intro k hk
    have hrows : (clampCol df i u l).rows.getD k (0, []) =
        ((df.rows.getD k (0, [])).1,
          setCells (fun v => decide (v < l)) l i
            (setCells (fun v => decide (u < v)) u i (df.rows.getD k (0, [])).2)) := by
      rw [clampCol, setWhere, setWhere]
      simp only [List.map_map]
      rw [rows_map_getD df.rows _ hk]
      rfl
    set cells := (df.rows.getD k (0, [])).2 with hcells
    refine ⟨by rw [hrows], ?_, ?_, ?_⟩
    · rw [hrows]
      simp [length_setCells]
    · intro j hj hne
      rw [hrows]
      have h1 : j < (setCells (fun v => decide (u < v)) u i cells).length := by
        rw [length_setCells]; exact hj
      calc (setCells (fun v => decide (v < l)) l i
            (setCells (fun v => decide (u < v)) u i cells)).getD j 0 =
          (setCells (fun v => decide (u < v)) u i cells).getD j 0 :=
            setCells_getD_ne _ _ h1 hne
        _ = cells.getD j 0 := setCells_getD_ne _ _ hj hne
    · intro hilt
      rw [hrows]
      have h1 : i < (setCells (fun v => decide (u < v)) u i cells).length := by
        rw [length_setCells]; exact hilt
      rw [setCells_getD_self _ _ h1, setCells_getD_self _ _ hilt]
      simp only [decide_eq_true_eq]
      split_ifs <;> first | rfl | linarith

/-- Witness for C4: compressing via IQR on a two-column dataset whose first
column flags the row labelled 3 (upper fence 65.5). -/
theorem C4_witness :
    dispatchMethod Real.sqrt
      (⟨["A", "B"], [(0, [1, 10]), (1, [2, 20]), (2, [3, 30]), (3, [100, 40])]⟩ : Dataset ℝ)
      "A" "IQR" none = .ok (some (131 / 2, -(73 / 2), [3])) ∧
    colIdx (⟨["A", "B"], [(0, [1, 10]), (1, [2, 20]), (2, [3, 30]), (3, [100, 40])]⟩ :
      Dataset ℝ) "A" = some 0 ∧
    handle_outliers Real.sqrt
      (⟨["A", "B"], [(0, [1, 10]), (1, [2, 20]), (2, [3, 30]), (3, [100, 40])]⟩ : Dataset ℝ)
      (.str "A") "IQR" "compress" =
      .ok (clampCol
        (⟨["A", "B"], [(0, [1, 10]), (1, [2, 20]), (2, [3, 30]), (3, [100, 40])]⟩ : Dataset ℝ)
        0 (131 / 2) (-(73 / 2)), [("compress", "A", [3])]) := by
  have h : dispatchMethod Real.sqrt
      (⟨["A", "B"], [(0, [1, 10]), (1, [2, 20]), (2, [3, 30]), (3, [100, 40])]⟩ : Dataset ℝ)
      "A" "IQR" none = .ok (some (131 / 2, -(73 / 2), [3])) := by
    rw [dispatchMethod_of_iqr (by decide)]
    norm_num [iqr_column, getCol, colIdx, pandas_quantile, sortVals,
      List.insertionSort, List.orderedInsert, List.findIdx?, List.findIdx?_cons,
      List.filterMap_cons, List.filter_cons, Bool.or_eq_true, decide_eq_true_eq]
  have hi : colIdx (⟨["A", "B"], [(0, [1, 10]), (1, [2, 20]), (2, [3, 30]), (3, [100, 40])]⟩ :
      Dataset ℝ) "A" = some 0 := by
    norm_num [colIdx, List.findIdx?, List.findIdx?_cons]
  exact ⟨h, hi, (C4_compress_frame _ _ _ _ _ _ _ h hi).1⟩

/-- Counterexample for C5 as stated: on the single-column dataset
`[0, 0, 0, 0, 0, 0, 5, 1000]`, the first IQR compress clamps rows 6 and 7 to
the fence 3.125, the second call recomputes the fences on the clamped data
(upper fence 1.953125) and clamps the same rows again, so the second call
does change values. -/
theorem C5_counterexample :
    handle_outliers Real.sqrt
      (⟨["A"], [(0, [0]), (1, [0]), (2, [0]), (3, [0]), (4, [0]), (5, [0]),
        (6, [5]), (7, [1000])]⟩ : Dataset ℝ) (.str "A") "IQR" "compress" =
      .ok (⟨["A"], [(0, [0]), (1, [0]), (2, [0]), (3, [0]), (4, [0]), (5, [0]),
        (6, [25 / 8]), (7, [25 / 8])]⟩, [("compress", "A", [6, 7])]) ∧
    handle_outliers Real.sqrt
      (⟨["A"], [(0, [0]), (1, [0]), (2, [0]), (3, [0]), (4, [0]), (5, [0]),
        (6, [25 / 8]), (7, [25 / 8])]⟩ : Dataset ℝ) (.str "A") "IQR" "compress" =
      .ok (⟨["A"], [(0, [0]), (1, [0]), (2, [0]), (3, [0]), (4, [0]), (5, [0]),
        (6, [125 / 64]), (7, [125 / 64])]⟩, [("compress", "A", [6, 7])]) ∧
    (⟨["A"], [(0, [0]), (1, [0]), (2, [0]), (3, [0]), (4, [0]), (5, [0]),
        (6, [125 / 64]), (7, [125 / 64])]⟩ : Dataset ℝ) ≠
      ⟨["A"], [(0, [0]), (1, [0]), (2, [0]), (3, [0]), (4, [0]), (5, [0]),
        (6, [25 / 8]), (7, [25 / 8])]⟩ := by
  refine ⟨?_, ?_, ?_⟩
  · norm_num [handle_outliers, handleColumns, handleLoop, hstep, dispatchMethod,
      doRemove, doCompress, clampCol, setWhere, setCells,
      iqr_column, getCol, colIdx, pandas_quantile, sortVals,
      List.insertionSort, List.orderedInsert, List.findIdx?, List.findIdx?_cons,
      List.filterMap_cons, List.filter_cons, Bool.or_eq_true, decide_eq_true_eq,
      show pyStripUpper "IQR" = "IQR" from by decide,
      show ("IQR" : String) ≠ "Z" from by decide,
      show ("compress" : String) ≠ "remove" from by decide]
  · norm_num [handle_outliers, handleColumns, handleLoop, hstep, dispatchMethod,
      doRemove, doCompress, clampCol, setWhere, setCells,
      iqr_column, getCol, colIdx, pandas_quantile, sortVals,
      List.insertionSort, List.orderedInsert, List.findIdx?, List.findIdx?_cons,
      List.filterMap_cons, List.filter_cons, Bool.or_eq_true, decide_eq_true_eq,
      show pyStripUpper "IQR" = "IQR" from by decide,
      show ("IQR" : String) ≠ "Z" from by decide,
      show ("compress" : String) ≠ "remove" from by decide]
  · intro hEq
    rw [Dataset.mk.injEq] at hEq
    have := hEq.2
    simp only [List.cons.injEq, Prod.mk.injEq] at this
    norm_num at this

/-- Claim C5 amended: compress is idempotent only at fixed limits — applying
the compress mutation (`clampCol`, the pair of `df.loc` assignments) twice
with the same column and the same limits leaves the dataset of the first
application unchanged.  A second `handle_outliers` call instead recomputes
the limits from the already clamped column, and can change values again
(see the counterexample). -/
theorem C5_amended_clamp_idem (df : Dataset ℝ) (i : Nat) (u l : ℝ) :
    clampCol (clampCol df i u l) i u l = clampCol df i u l := by
  rw [clampCol, clampCol, setWhere, setWhere, setWhere, setWhere]
  simp only [List.map_map]
  congr 1
  apply List.map_congr_left
  intro r _
  simp only [Function.comp]
  exact congrArg (fun cs => (r.1, cs)) (clampCells_idem u l i r.2)

/-- Counterexample for C6 as stated: on the single-column dataset
`[0, 0, 0, 10, 1000]`, the first IQR remove call deletes only the row
labelled 4 (fences −15 and 25); on the surviving data the recomputed fences
are −3.75 and 6.25, so the second call's outlier set is `[(3, 10)]` — not
empty — and the second call removes another row. -/
theorem C6_counterexample :
    handle_outliers Real.sqrt
      (⟨["A"], [(0, [0]), (1, [0]), (2, [0]), (3, [10]), (4, [1000])]⟩ : Dataset ℝ)
      (.str "A") "IQR" "remove" =
      .ok (⟨["A"], [(0, [0]), (1, [0]), (2, [0]), (3, [10])]⟩,
        [("remove", "A", [4])]) ∧
    iqr_column (⟨["A"], [(0, [0]), (1, [0]), (2, [0]), (3, [10])]⟩ : Dataset ℝ) "A" =
      .ok (25 / 4, -(15 / 4), [(3, 10)]) ∧
    ([((3 : ℕ), (10 : ℝ))] : List (ℕ × ℝ)) ≠ [] ∧
    handle_outliers Real.sqrt
      (⟨["A"], [(0, [0]), (1, [0]), (2, [0]), (3, [10])]⟩ : Dataset ℝ)
      (.str "A") "IQR" "remove" =
      .ok (⟨["A"], [(0, [0]), (1, [0]), (2, [0])]⟩, [("remove", "A", [3])]) := by
  refine ⟨?_, ?_, by simp, ?_⟩
  · norm_num [handle_outliers, handleColumns, handleLoop, hstep, dispatchMethod,
      doRemove, doCompress, dropRows, iqr_column, getCol, colIdx,
      pandas_quantile, sortVals, List.insertionSort, List.orderedInsert,
      List.findIdx?, List.findIdx?_cons, List.filterMap_cons, List.filter_cons,
      Bool.or_eq_true, decide_eq_true_eq,
      show pyStripUpper "IQR" = "IQR" from by decide,
      show ("IQR" : String) ≠ "Z" from by decide,
      show ("remove" : String) ≠ "compress" from by decide]
  · norm_num [iqr_column, getCol, colIdx, pandas_quantile, sortVals,
      List.insertionSort, List.orderedInsert, List.findIdx?, List.findIdx?_cons,
      List.filterMap_cons, List.filter_cons, Bool.or_eq_true, decide_eq_true_eq]
  · norm_num [handle_outliers, handleColumns, handleLoop, hstep, dispatchMethod,
      doRemove, doCompress, dropRows, iqr_column, getCol, colIdx,
      pandas_quantile, sortVals, List.insertionSort, List.orderedInsert,
      List.findIdx?, List.findIdx?_cons, List.filterMap_cons, List.filter_cons,
      Bool.or_eq_true, decide_eq_true_eq,
      show pyStripUpper "IQR" = "IQR" from by decide,
      show ("IQR" : String) ≠ "Z" from by decide,
      show ("remove" : String) ≠ "compress" from by decide]

/-- Claim C6 amended: after a remove pass, every surviving value of the
inspected column lies within the limits computed by the FIRST call, so
re-flagging with those same limits finds nothing; the second call instead
recomputes the limits on the survivors and can flag (and remove) further
rows (see the counterexample). -/
theorem C6_amended_remove (df : Dataset ℝ) (colA using_ : String)
    (u l : ℝ) (labels : List Nat) (feature : List (Nat × ℝ))
    (h : dispatchMethod Real.sqrt df colA using_ none = .ok (some (u, l, labels)))
    (hg : getCol df colA = some feature) :
    handle_outliers Real.sqrt df (.str colA) using_ "remove" =
      .ok (dropRows df labels, [("remove", colA, labels)]) ∧
    getCol (dropRows df labels) colA =
      some (feature.filter (fun r => !(labels.contains r.1))) ∧
    (∀ r ∈ feature.filter (fun r => !(labels.contains r.1)), l ≤ r.2 ∧ r.2 ≤ u) ∧
    (feature.filter (fun r => !(labels.contains r.1))).filter
      (fun r => decide (r.2 < l ∨ r.2 > u)) = [] := by
  have hsurv : ∀ r ∈ feature.filter (fun r => !(labels.contains r.1)),
      l ≤ r.2 ∧ r.2 ≤ u := by
    intro r hr
    obtain ⟨hrf, hrc⟩ := List.mem_filter.mp hr
    exact dispatch_survivor_bounds h hg r hrf (by
      intro hcon
      rw [hcon] at hrc
      exact absurd hrc (by simp))
  refine ⟨handle_remove_eq h, getCol_dropRows hg, hsurv, ?_⟩
  rw [List.filter_eq_nil_iff]
  intro r hr
  obtain ⟨h1, h2⟩ := hsurv r hr
  simp only [decide_eq_true_eq]
  push_neg
  exact ⟨h1, h2⟩

/-- Witness for C6 amended: the counterexample's first call — fences −15
and 25, flagged label 4, survivors `[0, 0, 0, 10]` all within the first
call's fences. -/
theorem C6_witness :
    dispatchMethod Real.sqrt
      (⟨["A"], [(0, [0]), (1, [0]), (2, [0]), (3, [10]), (4, [1000])]⟩ : Dataset ℝ)
      "A" "IQR" none = .ok (some (25, -15, [4])) ∧
    getCol (⟨["A"], [(0, [0]), (1, [0]), (2, [0]), (3, [10]), (4, [1000])]⟩ : Dataset ℝ)
      "A" = some [(0, 0), (1, 0), (2, 0), (3, 10), (4, 1000)] ∧
    handle_outliers Real.sqrt
      (⟨["A"], [(0, [0]), (1, [0]), (2, [0]), (3, [10]), (4, [1000])]⟩ : Dataset ℝ)
      (.str "A") "IQR" "remove" =
      .ok (dropRows
        (⟨["A"], [(0, [0]), (1, [0]), (2, [0]), (3, [10]), (4, [1000])]⟩ : Dataset ℝ)
        [4], [("remove", "A", [4])]) := by
  have h : dispatchMethod Real.sqrt
      (⟨["A"], [(0, [0]), (1, [0]), (2, [0]), (3, [10]), (4, [1000])]⟩ : Dataset ℝ)
      "A" "IQR" none = .ok (some (25, -15, [4])) := by
    rw [dispatchMethod_of_iqr (by decide)]
    norm_num [iqr_column, getCol, colIdx, pandas_quantile, sortVals,
      List.insertionSort, List.orderedInsert, List.findIdx?, List.findIdx?_cons,
      List.filterMap_cons, List.filter_cons, Bool.or_eq_true, decide_eq_true_eq]
  have hg : getCol
      (⟨["A"], [(0, [0]), (1, [0]), (2, [0]), (3, [10]), (4, [1000])]⟩ : Dataset ℝ) "A" =
      some [(0, 0), (1, 0), (2, 0), (3, 10), (4, 1000)] := by
    norm_num [getCol, colIdx, List.findIdx?, List.findIdx?_cons, List.filterMap_cons]
  exact ⟨h, hg, (C6_amended_remove _ _ _ _ _ _ _ h hg).1⟩

/-- Counterexample for C8 as stated: an unrecognized method token with the
recognized action `'remove'` is NOT a silent no-op — the loop body reaches
`outliers.index` with the locals never assigned and raises
`UnboundLocalError`. -/
theorem C8_counterexample :
    handle_outliers Real.sqrt (⟨["A"], [(0, [1]), (1, [2])]⟩ : Dataset ℝ)
      (.str "A") "range" "remove" = .error "UnboundLocalError" := by
  rw [handle_outliers, handleColumns, handleLoop, hstep,
    dispatchMethod_of_invalid (by decide) (by decide)]
  simp [doRemove]

/-- Claim C8 amended: with both method and action unrecognized the call is a
silent no-op (no mutation, no removal/compress report).  With a recognized
method and an unrecognized action the dataset is likewise unmutated and no
report is emitted (though the limits are still computed, so a missing column
still raises a lookup error).  With an unrecognized method and action
`'remove'` — or `'compress'` on an existing column — the loop body reads the
never-assigned locals and raises `UnboundLocalError` instead of silently
doing nothing. -/
theorem C8_amended_dispatch (df : Dataset ℝ) (colA using_ action : String) :
    (pyStripUpper using_ ≠ "IQR" → pyStripUpper using_ ≠ "Z" →
      action ≠ "remove" → action ≠ "compress" →
      handle_outliers Real.sqrt df (.str colA) using_ action = .ok (df, [])) ∧
    (pyStripUpper using_ ≠ "IQR" → pyStripUpper using_ ≠ "Z" →
      handle_outliers Real.sqrt df (.str colA) using_ "remove" =
        .error "UnboundLocalError") ∧
    (pyStripUpper using_ ≠ "IQR" → pyStripUpper using_ ≠ "Z" →
      (∃ i, colIdx df colA = some i) →
      handle_outliers Real.sqrt df (.str colA) using_ "compress" =
        .error "UnboundLocalError") ∧
    (∀ u l labels,
      dispatchMethod Real.sqrt df colA using_ none = .ok (some (u, l, labels)) →
      action ≠ "remove" → action ≠ "compress" →
      handle_outliers Real.sqrt df (.str colA) using_ action = .ok (df, [])) := by
  refine ⟨?_, ?_, ?_, ?_⟩
  · intro h1 h2 h3 h4
    rw [handle_outliers, handleColumns, handleLoop, hstep,
      dispatchMethod_of_invalid h1 h2]
    simp [doRemove, doCompress, handleLoop, h3, h4]
  · intro h1 h2
    rw [handle_outliers, handleColumns, handleLoop, hstep,
      dispatchMethod_of_invalid h1 h2]
    simp [doRemove]
  · rintro h1 h2 ⟨i, hi⟩
    rw [handle_outliers, handleColumns, handleLoop, hstep,
      dispatchMethod_of_invalid h1 h2]
    simp [doRemove, doCompress, hi,
      show ("compress" : String) ≠ "remove" from by decide]
  · intro u l labels h h3 h4
    rw [handle_outliers, handleColumns, handleLoop, hstep]
    simp only [h]
    simp [doRemove, doCompress, handleLoop, h3, h4]

/-- Witness for C8 amended: method `'range'`, action `'drop'` (both
unrecognized) — a silent no-op; and method `'Z'` with unrecognized action
`'drop'` — no mutation and no report. -/
theorem C8_witness :
    (pyStripUpper "range" ≠ "IQR") ∧ (pyStripUpper "range" ≠ "Z") ∧
    (("drop" : String) ≠ "remove") ∧ (("drop" : String) ≠ "compress") ∧
    handle_outliers Real.sqrt (⟨["A"], [(0, [0]), (1, [2])]⟩ : Dataset ℝ)
      (.str "A") "range" "drop" =
      .ok ((⟨["A"], [(0, [0]), (1, [2])]⟩ : Dataset ℝ), []) ∧
    handle_outliers Real.sqrt (⟨["A"], [(0, [0]), (1, [2])]⟩ : Dataset ℝ)
      (.str "A") "Z" "drop" =
      .ok ((⟨["A"], [(0, [0]), (1, [2])]⟩ : Dataset ℝ), []) := by
  have hd : dispatchMethod Real.sqrt
      (⟨["A"], [(0, [0]), (1, [2])]⟩ : Dataset ℝ) "A" "Z" none =
      .ok (some (4, -2, [])) := by
    rw [dispatchMethod_of_z (by decide)]
    norm_num [z_column, getCol, colIdx, np_mean, popVar, np_std, maskFilter,
      List.findIdx?, List.findIdx?_cons, List.filterMap_cons, List.filter_cons,
      List.zip, List.zipWith, decide_eq_true_eq, Real.sqrt_one]
  refine ⟨by decide, by decide, by decide, by decide, ?_, ?_⟩
  · exact (C8_amended_dispatch (⟨["A"], [(0, [0]), (1, [2])]⟩ : Dataset ℝ)
      "A" "range" "drop").1 (by decide) (by decide) (by decide) (by decide)
  · exact (C8_amended_dispatch (⟨["A"], [(0, [0]), (1, [2])]⟩ : Dataset ℝ)
      "A" "Z" "drop").2.2.2 _ _ _ hd (by decide) (by decide)

set_option maxHeartbeats 2000000 in
/-- Counterexample for C9 as stated: on a two-column dataset whose columns
have different limits, `outliers_z_score` and `outliers_IQR` in return mode
yield only the FIRST selected column's triple (the `return` sits inside the
`for` loop); the second column's triple differs and is never produced. -/
theorem C9_counterexample :
    outliers_z_score Real.sqrt
      (⟨["A", "B"], [(0, [0, 0]), (1, [0, 0]), (2, [2, 4]), (3, [2, 4])]⟩ : Dataset ℝ)
      (.list ["A", "B"]) "return" = .ok (some (4, -2, [])) ∧
    z_column Real.sqrt
      (⟨["A", "B"], [(0, [0, 0]), (1, [0, 0]), (2, [2, 4]), (3, [2, 4])]⟩ : Dataset ℝ)
      "B" = .ok (8, -4, []) ∧
    ((4 : ℝ), (-2 : ℝ), ([] : List (ℕ × ℝ × ℝ))) ≠ (8, -4, []) ∧
    outliers_IQR
      (⟨["A", "B"], [(0, [0, 0]), (1, [0, 0]), (2, [2, 4]), (3, [2, 4])]⟩ : Dataset ℝ)
      (.list ["A", "B"]) "return" = .ok (some (5, -3, [])) ∧
    iqr_column
      (⟨["A", "B"], [(0, [0, 0]), (1, [0, 0]), (2, [2, 4]), (3, [2, 4])]⟩ : Dataset ℝ)
      "B" = .ok (10, -6, []) ∧
    ((5 : ℝ), (-3 : ℝ), ([] : List (ℕ × ℝ))) ≠ (10, -6, []) := by
  have hsq4 : Real.sqrt 4 = 2 := by
    rw [show (4 : ℝ) = 2 ^ 2 from by norm_num, Real.sqrt_sq (by norm_num)]
  refine ⟨?_, ?_, by norm_num, ?_, ?_, by norm_num⟩
  · norm_num [outliers_z_score, normalizeColumns, z_loop,
      z_column, getCol, colIdx, np_mean, popVar, np_std, maskFilter,
      List.findIdx?, List.findIdx?_cons, List.filterMap_cons, List.filter_cons,
      List.zip, List.zipWith, decide_eq_true_eq, Real.sqrt_one,
      List.getElem_cons_zero, List.getElem_cons_succ,
      List.getElem?_cons_zero, List.getElem?_cons_succ,
      show ([0, 0] : List ℝ)[1] = 0 from rfl,
      show ([2, 4] : List ℝ)[1] = 4 from rfl,
      show ([0, 0] : List ℝ)[1]? = some 0 from rfl,
      show ([2, 4] : List ℝ)[1]? = some 4 from rfl,
      show ("A" : String) ≠ "B" from by decide]
  · norm_num [z_column, getCol, colIdx, np_mean, popVar, np_std, maskFilter,
      List.findIdx?, List.findIdx?_cons, List.filterMap_cons, List.filter_cons,
      List.zip, List.zipWith, decide_eq_true_eq, hsq4,
      List.getElem_cons_zero, List.getElem_cons_succ,
      List.getElem?_cons_zero, List.getElem?_cons_succ,
      show ([0, 0] : List ℝ)[1] = 0 from rfl,
      show ([2, 4] : List ℝ)[1] = 4 from rfl,
      show ([0, 0] : List ℝ)[1]? = some 0 from rfl,
      show ([2, 4] : List ℝ)[1]? = some 4 from rfl,
      show ("A" : String) ≠ "B" from by decide]
  · norm_num [outliers_IQR, normalizeColumns, iqr_loop,
      iqr_column, getCol, colIdx, pandas_quantile, sortVals,
      List.insertionSort, List.orderedInsert, List.findIdx?, List.findIdx?_cons,
      List.filterMap_cons, List.filter_cons, Bool.or_eq_true, decide_eq_true_eq,
      List.getElem_cons_zero, List.getElem_cons_succ,
      List.getElem?_cons_zero, List.getElem?_cons_succ,
      show ([0, 0] : List ℝ)[1] = 0 from rfl,
      show ([2, 4] : List ℝ)[1] = 4 from rfl,
      show ([0, 0] : List ℝ)[1]? = some 0 from rfl,
      show ([2, 4] : List ℝ)[1]? = some 4 from rfl,
      show ("A" : String) ≠ "B" from by decide]
  · norm_num [iqr_column, getCol, colIdx, pandas_quantile, sortVals,
      List.insertionSort, List.orderedInsert, List.findIdx?, List.findIdx?_cons,
      List.filterMap_cons, List.filter_cons, Bool.or_eq_true, decide_eq_true_eq,
      List.getElem_cons_zero, List.getElem_cons_succ,
      List.getElem?_cons_zero, List.getElem?_cons_succ,
      show ([0, 0] : List ℝ)[1] = 0 from rfl,
      show ([2, 4] : List ℝ)[1] = 4 from rfl,
      show ([0, 0] : List ℝ)[1]? = some 0 from rfl,
      show ([2, 4] : List ℝ)[1]? = some 4 from rfl,
      show ("A" : String) ≠ "B" from by decide]

/-- Claim C9 amended: in return mode both outlier functions return from
inside the first loop iteration, so the result is exactly the first
selected column's triple (or that column's lookup error); the remaining
selected columns are never processed. -/
theorem C9_amended_first_only (df : Dataset ℝ) (c : String) (rest : List String) :
    outliers_z_score Real.sqrt df (.list (c :: rest)) "return" =
      (z_column Real.sqrt df c).map (fun t => some t) ∧
    outliers_IQR df (.list (c :: rest)) "return" =
      (iqr_column df c).map (fun t => some t) := by
  constructor
  · rw [outliers_z_score, normalizeColumns, z_loop]
    cases h : z_column Real.sqrt df c <;> simp [h, Except.map]
  · rw [outliers_IQR, normalizeColumns, iqr_loop]
    cases h : iqr_column df c <;> simp [h, Except.map]

/-- Claim C10: `handle_outliers`, unlike the analysis functions, performs no
`'all_the_columns'` sentinel normalization — any single string is wrapped
literally, so with a recognized method and a selector naming no existing
column the call fails with the column lookup error, where
`five_point_summary` / `outliers_z_score` / `outliers_IQR` would have
expanded the sentinel to every column (their shared prologue
`normalizeColumns`). -/
theorem C10_handle_no_sentinel (df : Dataset ℝ) (sel using_ action : String)
    (hm : pyStripUpper using_ = "Z" ∨ pyStripUpper using_ = "IQR")
    (hnone : colIdx df sel = none) :
    handle_outliers Real.sqrt df (.str sel) using_ action = .error "KeyError" ∧
    handleColumns (.str sel) = [sel] ∧
    handleColumns (.str "all_the_columns") = ["all_the_columns"] ∧
    normalizeColumns df (.str "all_the_columns") = df.cols := by
  have hgc : getCol df sel = none := by
    rw [getCol, hnone]
  have hdisp : dispatchMethod Real.sqrt df sel using_ none = .error "KeyError" := by
    rcases hm with hZ | hIQR
    · rw [dispatchMethod_of_z hZ, z_column, hgc]
    · rw [dispatchMethod_of_iqr hIQR, iqr_column, hgc]
  refine ⟨?_, rfl, rfl, by rw [normalizeColumns]; simp⟩
  rw [handle_outliers, handleColumns, handleLoop, hstep]
  simp only [hdisp]

/-- Witness for C10: a dataset with a single column `"A"` and the sentinel
string as selector — `handle_outliers` raises the lookup error while the
sentinel normalization of the analysis functions selects `["A"]`. -/
theorem C10_witness :
    (pyStripUpper "Z" = "Z" ∨ pyStripUpper "Z" = "IQR") ∧
    colIdx (⟨["A"], [(0, [1]), (1, [2])]⟩ : Dataset ℝ) "all_the_columns" = none ∧
    handle_outliers Real.sqrt (⟨["A"], [(0, [1]), (1, [2])]⟩ : Dataset ℝ)
      (.str "all_the_columns") "Z" "remove" = .error "KeyError" ∧
    normalizeColumns (⟨["A"], [(0, [1]), (1, [2])]⟩ : Dataset ℝ)
      (.str "all_the_columns") = ["A"] := by
  have hnone : colIdx (⟨["A"], [(0, [1]), (1, [2])]⟩ : Dataset ℝ)
      "all_the_columns" = none := by
    norm_num [colIdx, List.findIdx?, List.findIdx?_cons,
      show ("A" : String) ≠ "all_the_columns" from by decide]
  have h := C10_handle_no_sentinel (⟨["A"], [(0, [1]), (1, [2])]⟩ : Dataset ℝ)
    "all_the_columns" "Z" "remove" (Or.inl (by decide)) hnone
  exact ⟨Or.inl (by decide), hnone, h.1, h.2.2.2⟩

end MLBasic

-- sanity examples at ℝ (the program instance)
example : MLBasic.pandas_quantile ([1, 2, 3, 4, 5, 100] : List ℝ) 1 4 = 9/4 := by
  norm_num [MLBasic.pandas_quantile, MLBasic.sortVals, List.insertionSort,
    List.orderedInsert]

example : MLBasic.pandas_quantile ([1, 2, 3, 4, 5, 100] : List ℝ) 3 4 = 19/4 := by
  norm_num [MLBasic.pandas_quantile, MLBasic.sortVals, List.insertionSort,
    List.orderedInsert]
